import Mathlib

/-!
Verification of the fighting-game AI decision engine.

This file gives a shallow embedding of the `AIController` class from
`src/public/js/ai.js` and proves properties of it.  JavaScript numbers are
modelled as rationals, the hidden `Math.random()` source is made explicit as a
list of draws (each call consumes draws from the front; an exhausted list
yields the in-range default 0), and the loose result objects
(`{attack: true}`, `{jump, moveDirection}`, `{move}`, `{idle: true}`) are
modelled as the closed tagged type `ActionIntent`.
-/

namespace FightingAI

/-- Horizontal direction, as used by the `moveDirection` / `move` fields. -/
inductive Dir where
  | left
  | right
deriving DecidableEq

/-- The tagged action result: exactly one of attack, jump, move, idle. -/
inductive ActionIntent where
  | idle
  | move (d : Dir)
  | attack
  | jump (d : Dir)
deriving DecidableEq

/-- The fighter view read by the engine each frame: `position.x`, `width`,
`dead`, `isAttacking`. -/
structure Fighter where
  x : ℚ
  width : ℚ
  dead : Bool
  isAttacking : Bool
deriving DecidableEq

/-- The per-tier personality record returned by `getDifficultyParams`. -/
@[ext]
structure Params where
  aggressiveness : ℚ
  defensiveness : ℚ
  attackRange : ℚ
  comfortDistance : ℚ
  jumpChance : ℚ
  mistakes : ℚ
  attackCooldownMin : ℚ
  attackCooldownMax : ℚ
deriving DecidableEq

/-- `getReactionTime` of `ai.js` (lines 22-29). -/
def getReactionTime (difficulty : String) : ℚ :=
  if difficulty = "easy" then 1200
  else if difficulty = "medium" then 400
  else if difficulty = "hard" then 150
  else 400

/-- The `easy` record of `getDifficultyParams`. -/
def easyProfile : Params :=
  { aggressiveness := 0.9
    defensiveness := 0.6
    attackRange := 190
    comfortDistance := 320
    jumpChance := 0.12
    mistakes := 0.5
    attackCooldownMin := 120
    attackCooldownMax := 120 }

/-- The `medium` record of `getDifficultyParams` (also the `default` case). -/
def mediumProfile : Params :=
  { aggressiveness := 0.28
    defensiveness := 0.35
    attackRange := 195
    comfortDistance := 200
    jumpChance := 0.22
    mistakes := 0.25
    attackCooldownMin := 180
    attackCooldownMax := 240 }

/-- The `hard` record of `getDifficultyParams`. -/
def hardProfile : Params :=
  { aggressiveness := 0.38
    defensiveness := 0.45
    attackRange := 220
    comfortDistance := 170
    jumpChance := 0.3
    mistakes := 0.12
    attackCooldownMin := 90
    attackCooldownMax := 150 }

/-- `getDifficultyParams` of `ai.js` (lines 31-69); the `default` case of the
switch returns the `medium` record. -/
def getDifficultyParams (difficulty : String) : Params :=
  if difficulty = "easy" then easyProfile
  else if difficulty = "medium" then mediumProfile
  else if difficulty = "hard" then hardProfile
  else mediumProfile

/-- The mutable fields of an `AIController` instance. -/
@[ext]
structure EngineState where
  difficulty : String
  aiState : String
  reactionTime : ℚ
  lastDecisionTime : ℚ
  currentAction : Option ActionIntent
  actionDuration : ℚ
  attackCooldown : ℚ
  jumpCooldown : ℚ
  strikeCount : ℕ
  params : Params
deriving DecidableEq

/-- The constructor of `AIController` (lines 7-20). -/
def mkAIController (difficulty : String) : EngineState :=
  { difficulty := difficulty
    aiState := "idle"
    reactionTime := getReactionTime difficulty
    lastDecisionTime := 0
    currentAction := none
    actionDuration := 0
    attackCooldown := 0
    jumpCooldown := 0
    strikeCount := 0
    params := getDifficultyParams difficulty }

/-- `setDifficulty` of `ai.js` (lines 225-229). -/
def setDifficulty (s : EngineState) (difficulty : String) : EngineState :=
  { s with
    difficulty := difficulty
    reactionTime := getReactionTime difficulty
    params := getDifficultyParams difficulty }

/-- Consume one draw from the explicit uniform source (one `Math.random()`
call); an exhausted list yields the in-range default 0. -/
def draw : List ℚ → ℚ × List ℚ
  | [] => (0, [])
  | r :: rs => (r, rs)

/-- `getIdleActions` of `ai.js` (lines 209-211): the `{idle: true}` object. -/
def getIdleActions : ActionIntent := .idle

/-- `continueCurrentAction` of `ai.js` (lines 184-189). -/
def continueCurrentAction (s : EngineState) : ActionIntent :=
  s.currentAction.getD getIdleActions

/-- The fixed six-element list of `makeRandomAction` (lines 195-202). -/
def mistakeActions : List ActionIntent :=
  [getIdleActions, .move .left, .move .right, .attack, .jump .left, .jump .right]

/-- `makeRandomAction` of `ai.js` (lines 194-204): index
`Math.floor(Math.random() * actions.length)` into the fixed list, with the
draw made explicit. -/
def makeRandomAction (r : ℚ) : ActionIntent :=
  mistakeActions.getD (Int.toNat ⌊r * 6⌋) getIdleActions

/-- `getDistance` of `ai.js` (lines 216-220): distance between horizontal
centers. -/
def getDistance (fighter1 fighter2 : Fighter) : ℚ :=
  |fighter1.x + fighter1.width / 2 - (fighter2.x + fighter2.width / 2)|

/-- The cooldown update at the top of `update` (lines 77-78): each counter is
decremented by 1 while strictly positive. -/
def decCooldowns (s : EngineState) : EngineState :=
  { s with
    attackCooldown := if 0 < s.attackCooldown then s.attackCooldown - 1 else s.attackCooldown
    jumpCooldown := if 0 < s.jumpCooldown then s.jumpCooldown - 1 else s.jumpCooldown }

/-- The attack assignment of `makeDecision` (lines 132-135): set
`attackCooldown = attackCooldownMin + Math.random() * cooldownRange` and
return `{attack: true}`. -/
def fireAttack (s : EngineState) (rng : List ℚ) : ActionIntent × EngineState × List ℚ :=
  let cooldownRange := s.params.attackCooldownMax - s.params.attackCooldownMin
  let r := (draw rng).1
  (.attack,
    { s with attackCooldown := s.params.attackCooldownMin + r * cooldownRange },
    (draw rng).2)

/-- Priority 5 of `makeDecision` (lines 171-178): strafe with probability 0.3,
else idle. -/
def decideStrafe (s : EngineState) (rng : List ℚ) : ActionIntent × EngineState × List ℚ :=
  let r := (draw rng).1
  let rng1 := (draw rng).2
  if r < 0.3 then
    (.move (if (draw rng1).1 < 0.5 then .left else .right), s, (draw rng1).2)
  else
    (getIdleActions, s, rng1)

/-- Priority 3 of `makeDecision` (lines 156-169): movement relative to
`comfortDistance`, falling through to the strafe/idle tail. -/
def decideMove (s : EngineState) (distance : ℚ) (isOpponentLeft : Bool) (rng : List ℚ) :
    ActionIntent × EngineState × List ℚ :=
  let idealDistance := s.params.comfortDistance
  if idealDistance + 50 < distance then
    (.move (if isOpponentLeft then .left else .right), s, rng)
  else if distance < idealDistance - 50 then
    let r := (draw rng).1
    let rng1 := (draw rng).2
    if r < s.params.defensiveness then
      (.move (if isOpponentLeft then .right else .left), s, rng1)
    else
      decideStrafe s rng1
  else
    decideStrafe s rng

/-- The offensive jump check inside priority 2 (lines 148-153); the draw is
only made when the distance conditions hold. -/
def decideJumpOffense (s : EngineState) (distance : ℚ) (isOpponentLeft : Bool) (rng : List ℚ) :
    ActionIntent × EngineState × List ℚ :=
  if 250 < distance ∧ distance < 400 then
    let r := (draw rng).1
    let rng1 := (draw rng).2
    if r < s.params.jumpChance then
      (.jump (if isOpponentLeft then .left else .right), { s with jumpCooldown := 120 }, rng1)
    else
      decideMove s distance isOpponentLeft rng1
  else
    decideMove s distance isOpponentLeft rng

/-- Priority 2 of `makeDecision` (lines 139-154): jump logic, gated on
`jumpCooldown === 0`; the defensive draw is only made when `distance < 100`. -/
def decideJump (s : EngineState) (distance : ℚ) (isOpponentLeft : Bool) (rng : List ℚ) :
    ActionIntent × EngineState × List ℚ :=
  if s.jumpCooldown = 0 then
    if distance < 100 then
      let r := (draw rng).1
      let rng1 := (draw rng).2
      if r < s.params.defensiveness then
        (.jump (if isOpponentLeft then .right else .left), { s with jumpCooldown := 120 }, rng1)
      else
        decideJumpOffense s distance isOpponentLeft rng1
    else
      decideJumpOffense s distance isOpponentLeft rng
  else
    decideMove s distance isOpponentLeft rng

/-- `makeDecision` of `ai.js` (lines 111-179): mistake roll, then the attack
priority (with the easy-tier scripted miss), then the jump / movement /
strafe cascade. -/
def makeDecision (s : EngineState) (distance : ℚ) (isOpponentLeft : Bool) (rng : List ℚ) :
    ActionIntent × EngineState × List ℚ :=
  let rMistake := (draw rng).1
  let rng1 := (draw rng).2
  if rMistake < s.params.mistakes then
    let rIdx := (draw rng1).1
    (makeRandomAction rIdx, s, (draw rng1).2)
  else if distance < s.params.attackRange ∧ s.attackCooldown = 0 then
    let rAggr := (draw rng1).1
    let rng2 := (draw rng1).2
    if rAggr < s.params.aggressiveness then
      if s.difficulty = "easy" then
        let s1 := { s with strikeCount := s.strikeCount + 1 }
        if s1.strikeCount % 3 = 0 then
          (getIdleActions, { s1 with attackCooldown := s1.params.attackCooldownMin }, rng2)
        else
          fireAttack s1 rng2
      else
        fireAttack s rng2
    else
      decideJump s distance isOpponentLeft rng2
  else
    decideJump s distance isOpponentLeft rng1

/-- `update` of `ai.js` (lines 75-106): decrement cooldowns, short-circuit on
death / an attack in flight / the reaction-time gate, otherwise stamp
`lastDecisionTime`, compute a fresh decision and store it as
`currentAction`. -/
def update (s0 : EngineState) (aiPlayer opponent : Fighter) (currentTime : ℚ)
    (rng : List ℚ) : ActionIntent × EngineState × List ℚ :=
  let s := decCooldowns s0
  if aiPlayer.dead || opponent.dead then
    (getIdleActions, s, rng)
  else if aiPlayer.isAttacking then
    (continueCurrentAction s, s, rng)
  else if currentTime - s.lastDecisionTime < s.reactionTime then
    (continueCurrentAction s, s, rng)
  else
    let sd := { s with lastDecisionTime := currentTime }
    let distance := getDistance aiPlayer opponent
    let isOpponentLeft := decide (opponent.x < aiPlayer.x)
    let res := makeDecision sd distance isOpponentLeft rng
    (res.1, { res.2.1 with currentAction := some res.1 }, res.2.2)

/-- One call of the host loop: the inputs of a single `update` invocation,
with that call's random draws made explicit. -/
structure CallInput where
  aiPlayer : Fighter
  opponent : Fighter
  currentTime : ℚ
  rng : List ℚ
deriving DecidableEq

/-- Run one `update` call, keeping the returned action and the new state. -/
def stepCall (s : EngineState) (c : CallInput) : ActionIntent × EngineState :=
  ((update s c.aiPlayer c.opponent c.currentTime c.rng).1,
   (update s c.aiPlayer c.opponent c.currentTime c.rng).2.1)

/-- Run a finite list of `update` calls, collecting the emitted actions and
the final state. -/
def runCalls (s : EngineState) : List CallInput → List ActionIntent × EngineState
  | [] => ([], s)
  | c :: cs =>
    let a := (stepCall s c).1
    let s1 := (stepCall s c).2
    ((runCalls s1 cs).1.cons a, (runCalls s1 cs).2)

/-- Run `n` calls drawn from an input stream, collecting the emitted actions
and the final state. -/
def runFor (s : EngineState) (ins : ℕ → CallInput) : ℕ → List ActionIntent × EngineState
  | 0 => ([], s)
  | n + 1 =>
    let a := (stepCall s (ins 0)).1
    let s1 := (stepCall s (ins 0)).2
    ((runFor s1 (fun k => ins (k + 1)) n).1.cons a, (runFor s1 (fun k => ins (k + 1)) n).2)

/-- A list of draws all lying in the range of `Math.random()`. -/
def validRng (rng : List ℚ) : Prop := ∀ r ∈ rng, 0 ≤ r ∧ r < 1

/-- Engine states reachable from a freshly constructed controller by `update`
calls whose draws lie in `[0, 1)`. -/
inductive Reachable : EngineState → Prop
  | init (d : String) : Reachable (mkAIController d)
  | step (s : EngineState) (c : CallInput) (hv : validRng c.rng) (hs : Reachable s) :
      Reachable (stepCall s c).2

/-! ### Basic rewriting lemmas -/

theorem getDifficultyParams_easy : getDifficultyParams "easy" = easyProfile := by
  rw [getDifficultyParams, if_pos rfl]

theorem getDifficultyParams_medium : getDifficultyParams "medium" = mediumProfile := by
  rw [getDifficultyParams, if_neg (by decide), if_pos rfl]

theorem getDifficultyParams_hard : getDifficultyParams "hard" = hardProfile := by
  rw [getDifficultyParams, if_neg (by decide), if_neg (by decide), if_pos rfl]

theorem getReactionTime_easy : getReactionTime "easy" = 1200 := by
  rw [getReactionTime, if_pos rfl]

theorem getReactionTime_medium : getReactionTime "medium" = 400 := by
  rw [getReactionTime, if_neg (by decide), if_pos rfl]

theorem getReactionTime_hard : getReactionTime "hard" = 150 := by
  rw [getReactionTime, if_neg (by decide), if_neg (by decide), if_pos rfl]

theorem decCooldowns_attackCooldown (s : EngineState) :
    (decCooldowns s).attackCooldown =
      if 0 < s.attackCooldown then s.attackCooldown - 1 else s.attackCooldown := rfl

theorem decCooldowns_jumpCooldown (s : EngineState) :
    (decCooldowns s).jumpCooldown =
      if 0 < s.jumpCooldown then s.jumpCooldown - 1 else s.jumpCooldown := rfl

theorem decCooldowns_fields (s : EngineState) :
    (decCooldowns s).difficulty = s.difficulty ∧
    (decCooldowns s).reactionTime = s.reactionTime ∧
    (decCooldowns s).lastDecisionTime = s.lastDecisionTime ∧
    (decCooldowns s).currentAction = s.currentAction ∧
    (decCooldowns s).strikeCount = s.strikeCount ∧
    (decCooldowns s).params = s.params := ⟨rfl, rfl, rfl, rfl, rfl, rfl⟩

/-! ### Branch lemmas for `update` -/

theorem update_dead {aiPlayer opponent : Fighter} (s : EngineState) (t : ℚ) (rng : List ℚ)
    (h : aiPlayer.dead = true ∨ opponent.dead = true) :
    update s aiPlayer opponent t rng = (getIdleActions, decCooldowns s, rng) := by
  rcases h with h | h <;> simp [update, h]

theorem update_isAttacking {aiPlayer opponent : Fighter} (s : EngineState) (t : ℚ) (rng : List ℚ)
    (h1 : aiPlayer.dead = false) (h2 : opponent.dead = false)
    (h3 : aiPlayer.isAttacking = true) :
    update s aiPlayer opponent t rng = (continueCurrentAction s, decCooldowns s, rng) := by
  simp [update, h1, h2, h3, continueCurrentAction, decCooldowns]

theorem update_gated {aiPlayer opponent : Fighter} (s : EngineState) (t : ℚ) (rng : List ℚ)
    (h1 : aiPlayer.dead = false) (h2 : opponent.dead = false)
    (h3 : aiPlayer.isAttacking = false)
    (h4 : t - s.lastDecisionTime < s.reactionTime) :
    update s aiPlayer opponent t rng = (continueCurrentAction s, decCooldowns s, rng) := by
  simp [update, h1, h2, h3, continueCurrentAction, decCooldowns, h4]

theorem update_fresh {aiPlayer opponent : Fighter} (s : EngineState) (t : ℚ) (rng : List ℚ)
    (h1 : aiPlayer.dead = false) (h2 : opponent.dead = false)
    (h3 : aiPlayer.isAttacking = false)
    (h4 : ¬(t - s.lastDecisionTime < s.reactionTime)) :
    update s aiPlayer opponent t rng =
      ((makeDecision { decCooldowns s with lastDecisionTime := t }
          (getDistance aiPlayer opponent) (decide (opponent.x < aiPlayer.x)) rng).1,
       { (makeDecision { decCooldowns s with lastDecisionTime := t }
          (getDistance aiPlayer opponent) (decide (opponent.x < aiPlayer.x)) rng).2.1 with
         currentAction :=
          some (makeDecision { decCooldowns s with lastDecisionTime := t }
            (getDistance aiPlayer opponent) (decide (opponent.x < aiPlayer.x)) rng).1 },
       (makeDecision { decCooldowns s with lastDecisionTime := t }
          (getDistance aiPlayer opponent) (decide (opponent.x < aiPlayer.x)) rng).2.2) := by
  rw [update]
  simp only [h1, h2, h3, Bool.or_self, Bool.false_eq_true, if_false]
  rw [if_neg]
  exact h4

/-! ### Trace lemmas -/

theorem runCalls_cons_fst (s : EngineState) (c : CallInput) (cs : List CallInput) :
    (runCalls s (c :: cs)).1 = (stepCall s c).1 :: (runCalls (stepCall s c).2 cs).1 := by
  simp only [runCalls]

theorem runCalls_cons_snd (s : EngineState) (c : CallInput) (cs : List CallInput) :
    (runCalls s (c :: cs)).2 = (runCalls (stepCall s c).2 cs).2 := by
  simp only [runCalls]

theorem runCalls_append (s : EngineState) (l1 l2 : List CallInput) :
    runCalls s (l1 ++ l2) =
      ((runCalls s l1).1 ++ (runCalls (runCalls s l1).2 l2).1,
       (runCalls (runCalls s l1).2 l2).2) := by
  induction l1 generalizing s with
  | nil => simp [runCalls]
  | cons c cs ih => simp [runCalls, ih]

theorem runCalls_append_fst (s : EngineState) (l1 l2 : List CallInput) :
    (runCalls s (l1 ++ l2)).1 =
      (runCalls s l1).1 ++ (runCalls (runCalls s l1).2 l2).1 := by
  rw [runCalls_append]

theorem runCalls_append_snd (s : EngineState) (l1 l2 : List CallInput) :
    (runCalls s (l1 ++ l2)).2 = (runCalls (runCalls s l1).2 l2).2 := by
  rw [runCalls_append]

theorem runCalls_reachable (s : EngineState) (calls : List CallInput)
    (hs : Reachable s) (hv : ∀ c ∈ calls, validRng c.rng) :
    Reachable (runCalls s calls).2 := by
  induction calls generalizing s with
  | nil => exact hs
  | cons c cs ih =>
    exact ih _ (Reachable.step s c (hv c (List.mem_cons_self c cs)) hs)
      (fun d hd => hv d (List.mem_cons_of_mem c hd))

theorem draw_fst (rng : List ℚ) : (draw rng).1 = 0 ∨ (draw rng).1 ∈ rng := by
  cases rng with
  | nil => exact Or.inl rfl
  | cons r rs => exact Or.inr (List.mem_cons_self r rs)

theorem draw_snd_mem (rng : List ℚ) : ∀ x ∈ (draw rng).2, x ∈ rng := by
  cases rng with
  | nil => intro x hx; exact absurd hx (List.not_mem_nil x)
  | cons r rs => intro x hx; exact List.mem_cons_of_mem r hx

/-! ### State characterizations of the decision cascade -/

theorem fireAttack_eq (s : EngineState) (rng : List ℚ) :
    fireAttack s rng =
      (.attack,
       { s with attackCooldown := s.params.attackCooldownMin +
          (draw rng).1 * (s.params.attackCooldownMax - s.params.attackCooldownMin) },
       (draw rng).2) := rfl

theorem decideStrafe_state (s : EngineState) (rng : List ℚ) :
    (decideStrafe s rng).2.1 = s := by
  simp only [decideStrafe]
  by_cases hr : (draw rng).1 < 0.3
  · rw [if_pos hr]
  · rw [if_neg hr]

theorem decideMove_state (s : EngineState) (distance : ℚ) (l : Bool) (rng : List ℚ) :
    (decideMove s distance l rng).2.1 = s := by
  simp only [decideMove]
  by_cases hfar : s.params.comfortDistance + 50 < distance
  · rw [if_pos hfar]
  · rw [if_neg hfar]
    by_cases hnear : distance < s.params.comfortDistance - 50
    · rw [if_pos hnear]
      by_cases hr : (draw rng).1 < s.params.defensiveness
      · rw [if_pos hr]
      · rw [if_neg hr]
        exact decideStrafe_state ..
    · rw [if_neg hnear]
      exact decideStrafe_state ..

theorem decideJumpOffense_state (s : EngineState) (distance : ℚ) (l : Bool) (rng : List ℚ) :
    (decideJumpOffense s distance l rng).2.1 = s ∨
    (decideJumpOffense s distance l rng).2.1 = { s with jumpCooldown := 120 } := by
  simp only [decideJumpOffense]
  by_cases hc : 250 < distance ∧ distance < 400
  · rw [if_pos hc]
    by_cases hr : (draw rng).1 < s.params.jumpChance
    · rw [if_pos hr]
      exact Or.inr rfl
    · rw [if_neg hr]
      exact Or.inl (decideMove_state ..)
  · rw [if_neg hc]
    exact Or.inl (decideMove_state ..)

theorem decideJump_state (s : EngineState) (distance : ℚ) (l : Bool) (rng : List ℚ) :
    (decideJump s distance l rng).2.1 = s ∨
    (decideJump s distance l rng).2.1 = { s with jumpCooldown := 120 } := by
  simp only [decideJump]
  by_cases h0 : s.jumpCooldown = 0
  · rw [if_pos h0]
    by_cases hd : distance < 100
    · rw [if_pos hd]
      by_cases hr : (draw rng).1 < s.params.defensiveness
      · rw [if_pos hr]
        exact Or.inr rfl
      · rw [if_neg hr]
        exact decideJumpOffense_state ..
    · rw [if_neg hd]
      exact decideJumpOffense_state ..
  · rw [if_neg h0]
    exact Or.inl (decideMove_state ..)

theorem decideJump_state_of_ne (s : EngineState) (distance : ℚ) (l : Bool) (rng : List ℚ)
    (h : s.jumpCooldown ≠ 0) :
    (decideJump s distance l rng).2.1 = s := by
  rw [decideJump, if_neg h]
  exact decideMove_state ..

theorem makeDecision_state (s : EngineState) (distance : ℚ) (l : Bool) (rng : List ℚ) :
    (makeDecision s distance l rng).2.1 = s ∨
    (makeDecision s distance l rng).2.1 = { s with jumpCooldown := 120 } ∨
    (makeDecision s distance l rng).2.1 =
      { s with strikeCount := s.strikeCount + 1,
               attackCooldown := s.params.attackCooldownMin } ∨
    (∃ r, (r = 0 ∨ r ∈ rng) ∧
      ((makeDecision s distance l rng).2.1 =
        { s with attackCooldown := s.params.attackCooldownMin +
            r * (s.params.attackCooldownMax - s.params.attackCooldownMin) } ∨
       (makeDecision s distance l rng).2.1 =
        { s with strikeCount := s.strikeCount + 1,
                 attackCooldown := s.params.attackCooldownMin +
                   r * (s.params.attackCooldownMax - s.params.attackCooldownMin) })) := by
  have hmem : (draw (draw (draw rng).2).2).1 = 0 ∨ (draw (draw (draw rng).2).2).1 ∈ rng := by
    rcases draw_fst (draw (draw rng).2).2 with h | h
    · exact Or.inl h
    · exact Or.inr (draw_snd_mem _ _ (draw_snd_mem _ _ h))
  simp only [makeDecision]
  by_cases h1 : (draw rng).1 < s.params.mistakes
  · rw [if_pos h1]
    exact Or.inl rfl
  · rw [if_neg h1]
    by_cases h2 : distance < s.params.attackRange ∧ s.attackCooldown = 0
    · rw [if_pos h2]
      by_cases h3 : (draw (draw rng).2).1 < s.params.aggressiveness
      · rw [if_pos h3]
        by_cases h4 : s.difficulty = "easy"
        · rw [if_pos h4]
          by_cases h5 : (s.strikeCount + 1) % 3 = 0
          · rw [if_pos h5]
            exact Or.inr (Or.inr (Or.inl rfl))
          · rw [if_neg h5, fireAttack_eq]
            exact Or.inr (Or.inr (Or.inr ⟨_, hmem, Or.inr rfl⟩))
        · rw [if_neg h4, fireAttack_eq]
          exact Or.inr (Or.inr (Or.inr ⟨_, hmem, Or.inl rfl⟩))
      · rw [if_neg h3]
        rcases decideJump_state s distance l (draw (draw rng).2).2 with h | h
        · exact Or.inl h
        · exact Or.inr (Or.inl h)
    · rw [if_neg h2]
      rcases decideJump_state s distance l (draw rng).2 with h | h
      · exact Or.inl h
      · exact Or.inr (Or.inl h)

theorem makeDecision_attackCooldown_of_ne (s : EngineState) (distance : ℚ) (l : Bool)
    (rng : List ℚ) (h : s.attackCooldown ≠ 0) :
    (makeDecision s distance l rng).2.1.attackCooldown = s.attackCooldown := by
  have hg : ¬(distance < s.params.attackRange ∧ s.attackCooldown = 0) := fun hc => h hc.2
  simp only [makeDecision]
  by_cases h1 : (draw rng).1 < s.params.mistakes
  · rw [if_pos h1]
  · rw [if_neg h1, if_neg hg]
    rcases decideJump_state s distance l (draw rng).2 with hj | hj <;> rw [hj]

theorem makeDecision_jumpCooldown_of_ne (s : EngineState) (distance : ℚ) (l : Bool)
    (rng : List ℚ) (h : s.jumpCooldown ≠ 0) :
    (makeDecision s distance l rng).2.1.jumpCooldown = s.jumpCooldown := by
  simp only [makeDecision]
  by_cases h1 : (draw rng).1 < s.params.mistakes
  · rw [if_pos h1]
  · rw [if_neg h1]
    by_cases h2 : distance < s.params.attackRange ∧ s.attackCooldown = 0
    · rw [if_pos h2]
      by_cases h3 : (draw (draw rng).2).1 < s.params.aggressiveness
      · rw [if_pos h3]
        by_cases h4 : s.difficulty = "easy"
        · rw [if_pos h4]
          by_cases h5 : (s.strikeCount + 1) % 3 = 0
          · rw [if_pos h5]
          · rw [if_neg h5, fireAttack_eq]
        · rw [if_neg h4, fireAttack_eq]
      · rw [if_neg h3, decideJump_state_of_ne s distance l _ h]
    · rw [if_neg h2, decideJump_state_of_ne s distance l _ h]

/-- Fields of the engine state that no branch of `makeDecision` ever writes. -/
theorem makeDecision_fields (s : EngineState) (distance : ℚ) (l : Bool) (rng : List ℚ) :
    (makeDecision s distance l rng).2.1.lastDecisionTime = s.lastDecisionTime ∧
    (makeDecision s distance l rng).2.1.currentAction = s.currentAction ∧
    (makeDecision s distance l rng).2.1.reactionTime = s.reactionTime ∧
    (makeDecision s distance l rng).2.1.params = s.params ∧
    (makeDecision s distance l rng).2.1.difficulty = s.difficulty := by
  rcases makeDecision_state s distance l rng with h | h | h | ⟨r, _, h | h⟩ <;>
    rw [h] <;> exact ⟨rfl, rfl, rfl, rfl, rfl⟩

/-- Running `n` back-to-back calls that all fall inside the reaction window
(and with both fighters alive and no attack in flight) just repeats the
current action and decrements `attackCooldown` by `n`, provided the counter
stays positive until the last of those calls. -/
theorem runCalls_gated (aiPlayer opponent : Fighter) (t : ℚ)
    (h1 : aiPlayer.dead = false) (h2 : opponent.dead = false)
    (h3 : aiPlayer.isAttacking = false) :
    ∀ (n : ℕ) (s : EngineState), t - s.lastDecisionTime < s.reactionTime →
      (n : ℚ) - 1 < s.attackCooldown → s.jumpCooldown = 0 →
      runCalls s (List.replicate n ⟨aiPlayer, opponent, t, []⟩) =
        (List.replicate n (continueCurrentAction s),
         { s with attackCooldown := s.attackCooldown - n }) := by
  intro n
  induction n with
  | zero =>
    intro s _ _ _
    simp [runCalls]
  | succ n ih =>
    intro s hgate hpos hjump
    have hpos0 : 0 < s.attackCooldown := by
      have hn : (0 : ℚ) ≤ (n : ℚ) := by positivity
      push_cast at hpos
      linarith
    have hdec : decCooldowns s = { s with attackCooldown := s.attackCooldown - 1 } := by
      rw [decCooldowns, if_pos hpos0, hjump]
      simp
    have hstep : stepCall s ⟨aiPlayer, opponent, t, []⟩ =
        (continueCurrentAction s, { s with attackCooldown := s.attackCooldown - 1 }) := by
      rw [stepCall, update_gated s t [] h1 h2 h3 hgate, hdec]
    have hrec := ih { s with attackCooldown := s.attackCooldown - 1 }
      (by simpa using hgate) (by push_cast at hpos ⊢; linarith) hjump
    rw [List.replicate_succ, runCalls]
    try dsimp only
    rw [hstep, hrec]
    simp only [Prod.mk.injEq]
    refine ⟨(List.replicate_succ _ _).symm, ?_⟩
    ext <;> first | rfl | (push_cast; ring)

/-! ### The reachable-state invariant -/

/-- The current `params` record is one of the three rows of the fixed table. -/
def ParamsOK (p : Params) : Prop :=
  p = easyProfile ∨ p = mediumProfile ∨ p = hardProfile

theorem getDifficultyParams_ok (d : String) : ParamsOK (getDifficultyParams d) := by
  rw [getDifficultyParams]
  split_ifs
  · exact Or.inl rfl
  · exact Or.inr (Or.inl rfl)
  · exact Or.inr (Or.inr rfl)
  · exact Or.inr (Or.inl rfl)

theorem paramsOK_bounds (p : Params) (h : ParamsOK p) :
    0 < p.attackCooldownMin ∧ p.attackCooldownMin ≤ p.attackCooldownMax := by
  rcases h with h | h | h <;> subst h <;>
    exact ⟨by norm_num [easyProfile, mediumProfile, hardProfile],
           by norm_num [easyProfile, mediumProfile, hardProfile]⟩

/-- Invariant maintained by every `update` call: `attackCooldown` stays above
`-1`, `jumpCooldown` is a natural number at most 120, and `params` is a row of
the fixed table. -/
def Inv (s : EngineState) : Prop :=
  (-1 : ℚ) < s.attackCooldown ∧
  (∃ n : ℕ, n ≤ 120 ∧ s.jumpCooldown = (n : ℚ)) ∧
  ParamsOK s.params

theorem inv_init (d : String) : Inv (mkAIController d) := by
  refine ⟨by norm_num [mkAIController], ⟨0, by norm_num, by norm_num [mkAIController]⟩, ?_⟩
  exact getDifficultyParams_ok d

theorem inv_decCooldowns (s : EngineState) (h : Inv s) : Inv (decCooldowns s) := by
  obtain ⟨ha, ⟨n, hn, hj⟩, hp⟩ := h
  refine ⟨?_, ?_, hp⟩
  · rw [decCooldowns_attackCooldown]
    split_ifs with h0 <;> linarith
  · rw [decCooldowns_jumpCooldown, hj]
    by_cases h0 : (0 : ℚ) < (n : ℚ)
    · rw [if_pos h0]
      have hn1 : 1 ≤ n := by exact_mod_cast h0
      exact ⟨n - 1, by omega, by push_cast [hn1]; ring⟩
    · rw [if_neg h0]
      exact ⟨n, hn, rfl⟩

/-- Every `update` call either stops after the cooldown decrement (death, an
attack in flight, or the reaction gate) or additionally stamps the decision
time, runs `makeDecision` and stores the result as `currentAction`. -/
theorem update_state_char (s : EngineState) (aiPlayer opponent : Fighter) (t : ℚ)
    (rng : List ℚ) :
    (update s aiPlayer opponent t rng).2.1 = decCooldowns s ∨
    (update s aiPlayer opponent t rng).2.1 =
      { (makeDecision { decCooldowns s with lastDecisionTime := t }
          (getDistance aiPlayer opponent) (decide (opponent.x < aiPlayer.x)) rng).2.1 with
        currentAction := some (makeDecision { decCooldowns s with lastDecisionTime := t }
          (getDistance aiPlayer opponent) (decide (opponent.x < aiPlayer.x)) rng).1 } := by
  simp only [update]
  by_cases hd : (aiPlayer.dead || opponent.dead) = true
  · rw [if_pos hd]
    exact Or.inl rfl
  · rw [if_neg hd]
    by_cases hatt : aiPlayer.isAttacking = true
    · rw [if_pos hatt]
      exact Or.inl rfl
    · rw [if_neg hatt]
      by_cases hg : t - (decCooldowns s).lastDecisionTime < (decCooldowns s).reactionTime
      · rw [if_pos hg]
        exact Or.inl rfl
      · rw [if_neg hg]
        exact Or.inr rfl

theorem inv_makeDecision (s : EngineState) (d : ℚ) (l : Bool) (rng : List ℚ)
    (hv : validRng rng) (h : Inv s) : Inv (makeDecision s d l rng).2.1 := by
  obtain ⟨ha, hjn, hp⟩ := h
  have hmin := paramsOK_bounds _ hp
  rcases makeDecision_state s d l rng with hc | hc | hc | ⟨r, hr, hc | hc⟩ <;> rw [hc]
  · exact ⟨ha, hjn, hp⟩
  · exact ⟨ha, ⟨120, le_refl 120, by norm_num⟩, hp⟩
  · refine ⟨?_, hjn, hp⟩
    show (-1 : ℚ) < s.params.attackCooldownMin
    linarith [hmin.1]
  · refine ⟨?_, hjn, hp⟩
    show (-1 : ℚ) < s.params.attackCooldownMin +
      r * (s.params.attackCooldownMax - s.params.attackCooldownMin)
    have hr0 : (0 : ℚ) ≤ r := by
      rcases hr with hr | hr
      · rw [hr]
      · exact (hv r hr).1
    nlinarith [hmin.1, hmin.2, mul_nonneg hr0 (by linarith [hmin.2] :
      (0 : ℚ) ≤ s.params.attackCooldownMax - s.params.attackCooldownMin)]
  · refine ⟨?_, hjn, hp⟩
    show (-1 : ℚ) < s.params.attackCooldownMin +
      r * (s.params.attackCooldownMax - s.params.attackCooldownMin)
    have hr0 : (0 : ℚ) ≤ r := by
      rcases hr with hr | hr
      · rw [hr]
      · exact (hv r hr).1
    nlinarith [hmin.1, hmin.2, mul_nonneg hr0 (by linarith [hmin.2] :
      (0 : ℚ) ≤ s.params.attackCooldownMax - s.params.attackCooldownMin)]

theorem inv_update (s : EngineState) (aiPlayer opponent : Fighter) (t : ℚ) (rng : List ℚ)
    (hv : validRng rng) (h : Inv s) : Inv (update s aiPlayer opponent t rng).2.1 := by
  rcases update_state_char s aiPlayer opponent t rng with hc | hc <;> rw [hc]
  · exact inv_decCooldowns s h
  · have hsd : Inv { decCooldowns s with lastDecisionTime := t } := inv_decCooldowns s h
    exact inv_makeDecision _ _ _ _ hv hsd

theorem reachable_inv (s : EngineState) (h : Reachable s) : Inv s := by
  induction h with
  | init d => exact inv_init d
  | step s c hv hs ih => exact inv_update s c.aiPlayer c.opponent c.currentTime c.rng hv ih

/-! ### Exact decrement behaviour of the cooldown counters -/

theorem update_attackCooldown_dec (s : EngineState) (aiPlayer opponent : Fighter) (t : ℚ)
    (rng : List ℚ) (h0 : 0 < s.attackCooldown) (hne : s.attackCooldown ≠ 1) :
    (update s aiPlayer opponent t rng).2.1.attackCooldown = s.attackCooldown - 1 := by
  have ha : (decCooldowns s).attackCooldown = s.attackCooldown - 1 := by
    rw [decCooldowns_attackCooldown, if_pos h0]
  have hne0 : (decCooldowns s).attackCooldown ≠ 0 := by
    rw [ha]
    intro hx
    exact hne (by linarith [sub_eq_zero.mp hx])
  rcases update_state_char s aiPlayer opponent t rng with hc | hc <;> rw [hc]
  · exact ha
  · show (makeDecision { decCooldowns s with lastDecisionTime := t }
      (getDistance aiPlayer opponent) (decide (opponent.x < aiPlayer.x)) rng).2.1.attackCooldown =
      s.attackCooldown - 1
    rw [makeDecision_attackCooldown_of_ne { decCooldowns s with lastDecisionTime := t }
      (getDistance aiPlayer opponent) (decide (opponent.x < aiPlayer.x)) rng hne0]
    exact ha

theorem update_jumpCooldown_dec (s : EngineState) (aiPlayer opponent : Fighter) (t : ℚ)
    (rng : List ℚ) (h0 : 0 < s.jumpCooldown) (hne : s.jumpCooldown ≠ 1) :
    (update s aiPlayer opponent t rng).2.1.jumpCooldown = s.jumpCooldown - 1 := by
  have ha : (decCooldowns s).jumpCooldown = s.jumpCooldown - 1 := by
    rw [decCooldowns_jumpCooldown, if_pos h0]
  have hne0 : (decCooldowns s).jumpCooldown ≠ 0 := by
    rw [ha]
    intro hx
    exact hne (by linarith [sub_eq_zero.mp hx])
  rcases update_state_char s aiPlayer opponent t rng with hc | hc <;> rw [hc]
  · exact ha
  · show (makeDecision { decCooldowns s with lastDecisionTime := t }
      (getDistance aiPlayer opponent) (decide (opponent.x < aiPlayer.x)) rng).2.1.jumpCooldown =
      s.jumpCooldown - 1
    rw [makeDecision_jumpCooldown_of_ne { decCooldowns s with lastDecisionTime := t }
      (getDistance aiPlayer opponent) (decide (opponent.x < aiPlayer.x)) rng hne0]
    exact ha

theorem update_jumpCooldown_one (s : EngineState) (aiPlayer opponent : Fighter) (t : ℚ)
    (rng : List ℚ) (h : s.jumpCooldown = 1) :
    (update s aiPlayer opponent t rng).2.1.jumpCooldown = 0 ∨
    (update s aiPlayer opponent t rng).2.1.jumpCooldown = 120 := by
  have ha : (decCooldowns s).jumpCooldown = 0 := by
    rw [decCooldowns_jumpCooldown, if_pos (by rw [h]; norm_num), h]
    norm_num
  rcases update_state_char s aiPlayer opponent t rng with hc | hc <;> rw [hc]
  · exact Or.inl ha
  · rcases makeDecision_state { decCooldowns s with lastDecisionTime := t }
        (getDistance aiPlayer opponent) (decide (opponent.x < aiPlayer.x)) rng with
      hm | hm | hm | ⟨r, _, hm | hm⟩
    all_goals
      show (makeDecision { decCooldowns s with lastDecisionTime := t }
        (getDistance aiPlayer opponent) (decide (opponent.x < aiPlayer.x)) rng).2.1.jumpCooldown
          = 0 ∨
        (makeDecision { decCooldowns s with lastDecisionTime := t }
          (getDistance aiPlayer opponent)
          (decide (opponent.x < aiPlayer.x)) rng).2.1.jumpCooldown = 120
    all_goals rw [hm]
    · exact Or.inl ha
    · exact Or.inr rfl
    · exact Or.inl ha
    · exact Or.inl ha
    · exact Or.inl ha

theorem stepCall_jumpCooldown_dec (s : EngineState) (c : CallInput)
    (h0 : 0 < s.jumpCooldown) (hne : s.jumpCooldown ≠ 1) :
    (stepCall s c).2.jumpCooldown = s.jumpCooldown - 1 :=
  update_jumpCooldown_dec s c.aiPlayer c.opponent c.currentTime c.rng h0 hne

theorem runFor_jump_countdown : ∀ (j : ℕ) (ins : ℕ → CallInput) (s : EngineState),
    (j : ℚ) < s.jumpCooldown →
    (runFor s ins j).2.jumpCooldown = s.jumpCooldown - j := by
  intro j
  induction j with
  | zero =>
    intro ins s _
    simp [runFor]
  | succ n ih =>
    intro ins s h
    have hn : (0 : ℚ) ≤ (n : ℚ) := by positivity
    have h1 : 1 ≤ (n : ℚ) + 1 := by linarith
    have hlt : (1 : ℚ) ≤ s.jumpCooldown := by push_cast at h; linarith
    have hcast : ((n : ℚ) + 1) ≤ s.jumpCooldown := by push_cast at h; linarith
    have hstep : (stepCall s (ins 0)).2.jumpCooldown = s.jumpCooldown - 1 := by
      rcases eq_or_lt_of_le hcast with hq | hq
      · -- jumpCooldown = n + 1 with n + 1 > 1 is impossible only when n = 0; treat uniformly
        exact stepCall_jumpCooldown_dec s (ins 0) (by push_cast at h; linarith)
          (by push_cast at h; intro hx; rw [hx] at h; linarith)
      · exact stepCall_jumpCooldown_dec s (ins 0) (by push_cast at h; linarith)
          (by push_cast at h; intro hx; rw [hx] at h; linarith)
    simp only [runFor]
    have hrec := ih (fun k => ins (k + 1)) (stepCall s (ins 0)).2
      (by rw [hstep]; push_cast at h ⊢; linarith)
    rw [hrec, hstep]
    push_cast
    ring

/-! ### Pre-reaction behaviour of a fresh controller -/

theorem runCalls_pre_reaction : ∀ (calls : List CallInput) (s : EngineState),
    s.currentAction = none → s.lastDecisionTime = 0 →
    (∀ c ∈ calls, c.currentTime < s.reactionTime) →
    (∀ a ∈ (runCalls s calls).1, a = getIdleActions) ∧
    (runCalls s calls).2.currentAction = none ∧
    (runCalls s calls).2.lastDecisionTime = 0 ∧
    (runCalls s calls).2.reactionTime = s.reactionTime := by
  intro calls
  induction calls with
  | nil =>
    intro s h1 h2 _
    exact ⟨by simp [runCalls], h1, h2, rfl⟩
  | cons c cs ih =>
    intro s h1 h2 hlt
    have hone : (stepCall s c).1 = getIdleActions ∧ (stepCall s c).2.currentAction = none ∧
        (stepCall s c).2.lastDecisionTime = 0 ∧
        (stepCall s c).2.reactionTime = s.reactionTime := by
      unfold stepCall
      by_cases hd : c.aiPlayer.dead = true ∨ c.opponent.dead = true
      · rw [update_dead s c.currentTime c.rng hd]
        exact ⟨rfl, h1, h2, rfl⟩
      · have hd1 : c.aiPlayer.dead = false := by
          revert hd
          cases c.aiPlayer.dead <;> cases c.opponent.dead <;> simp
        have hd2 : c.opponent.dead = false := by
          revert hd
          cases c.aiPlayer.dead <;> cases c.opponent.dead <;> simp
        by_cases hatt : c.aiPlayer.isAttacking = true
        · rw [update_isAttacking s c.currentTime c.rng hd1 hd2 hatt]
          refine ⟨?_, h1, h2, rfl⟩
          rw [continueCurrentAction, h1]
          rfl
        · have hatt1 : c.aiPlayer.isAttacking = false := by
            revert hatt
            cases c.aiPlayer.isAttacking <;> simp
          have hg : c.currentTime - s.lastDecisionTime < s.reactionTime := by
            rw [h2, sub_zero]
            exact hlt c (List.mem_cons_self c cs)
          rw [update_gated s c.currentTime c.rng hd1 hd2 hatt1 hg]
          refine ⟨?_, h1, h2, rfl⟩
          rw [continueCurrentAction, h1]
          rfl
    have hrec := ih (stepCall s c).2 hone.2.1 hone.2.2.1
      (fun d hd => by rw [hone.2.2.2]; exact hlt d (List.mem_cons_of_mem c hd))
    have hr2 : (runCalls s (c :: cs)).2 = (runCalls (stepCall s c).2 cs).2 := by
      simp only [runCalls]
    refine ⟨?_, hrec.2.1, hrec.2.2.1, by rw [hr2, hrec.2.2.2, hone.2.2.2]⟩
    intro a ha
    rw [runCalls] at ha
    rcases List.mem_cons.mp ha with ha | ha
    · rw [ha, hone.1]
    · exact hrec.1 a ha

theorem bool_not_true {b : Bool} (h : ¬(b = true)) : b = false := by
  cases b
  · rfl
  · exact absurd rfl h

/-- When both fighters are alive, the stored `currentAction` (defaulting to
idle) after a call is exactly the action the call returned. -/
theorem update_currentAction_getD (s : EngineState) (aiPlayer opponent : Fighter)
    (t : ℚ) (rng : List ℚ) (h1 : aiPlayer.dead = false) (h2 : opponent.dead = false) :
    (update s aiPlayer opponent t rng).2.1.currentAction.getD getIdleActions =
      (update s aiPlayer opponent t rng).1 := by
  by_cases hatt : aiPlayer.isAttacking = true
  · rw [update_isAttacking s t rng h1 h2 hatt]
    rfl
  · by_cases hg : t - s.lastDecisionTime < s.reactionTime
    · rw [update_gated s t rng h1 h2 (bool_not_true hatt) hg]
      rfl
    · rw [update_fresh s t rng h1 h2 (bool_not_true hatt) hg]
      rfl

/-- When both fighters are alive and the reaction gate is closed (or an attack
is in flight), the call returns the stored `currentAction`. -/
theorem update_gate_closed_action (s : EngineState) (aiPlayer opponent : Fighter)
    (t : ℚ) (rng : List ℚ) (h1 : aiPlayer.dead = false) (h2 : opponent.dead = false)
    (hg : t - s.lastDecisionTime < s.reactionTime) :
    (update s aiPlayer opponent t rng).1 = s.currentAction.getD getIdleActions := by
  by_cases hatt : aiPlayer.isAttacking = true
  · rw [update_isAttacking s t rng h1 h2 hatt]
    rfl
  · rw [update_gated s t rng h1 h2 (bool_not_true hatt) hg]
    rfl

/-! ### Claim theorems -/

/-- C4: whenever `self.dead` or `opponent.dead` is true, `update` returns
`Idle` regardless of cooldown or timer state, leaves `lastDecisionTime` and
`currentAction` unchanged, and — apart from the step-1 cooldown decrement —
modifies no engine state. -/
theorem claim4_death_short_circuit (s : EngineState) (aiPlayer opponent : Fighter)
    (t : ℚ) (rng : List ℚ) (h : aiPlayer.dead = true ∨ opponent.dead = true) :
    (update s aiPlayer opponent t rng).1 = .idle ∧
    (update s aiPlayer opponent t rng).2.1.lastDecisionTime = s.lastDecisionTime ∧
    (update s aiPlayer opponent t rng).2.1.currentAction = s.currentAction ∧
    (update s aiPlayer opponent t rng).2.1 =
      { s with
        attackCooldown := if 0 < s.attackCooldown then s.attackCooldown - 1
          else s.attackCooldown,
        jumpCooldown := if 0 < s.jumpCooldown then s.jumpCooldown - 1
          else s.jumpCooldown } := by
  rw [update_dead s t rng h]
  exact ⟨rfl, rfl, rfl, rfl⟩

/-- C4 witness: a concrete dead-fighter call returns `Idle` and keeps
`lastDecisionTime` and `currentAction`. -/
theorem claim4_witness :
    (update (mkAIController "medium") ⟨0, 40, true, false⟩ ⟨100, 40, false, false⟩ 500
      [0.5]).1 = .idle ∧
    (update (mkAIController "medium") ⟨0, 40, true, false⟩ ⟨100, 40, false, false⟩ 500
      [0.5]).2.1.currentAction = (mkAIController "medium").currentAction := by
  have h := claim4_death_short_circuit (mkAIController "medium") ⟨0, 40, true, false⟩
    ⟨100, 40, false, false⟩ 500 [0.5] (Or.inl rfl)
  exact ⟨h.1, h.2.2.1⟩

/-- C5: the three recognized tiers configure exactly the fixed table of the
spec, and any unrecognized tier falls back to exactly the medium profile;
`setDifficulty` installs these values. -/
theorem claim5_difficulty_table :
    (getReactionTime "easy" = 1200 ∧ getDifficultyParams "easy" =
      ⟨0.9, 0.6, 190, 320, 0.12, 0.5, 120, 120⟩) ∧
    (getReactionTime "medium" = 400 ∧ getDifficultyParams "medium" =
      ⟨0.28, 0.35, 195, 200, 0.22, 0.25, 180, 240⟩) ∧
    (getReactionTime "hard" = 150 ∧ getDifficultyParams "hard" =
      ⟨0.38, 0.45, 220, 170, 0.3, 0.12, 90, 150⟩) ∧
    (∀ d : String, d ≠ "easy" → d ≠ "medium" → d ≠ "hard" →
      getReactionTime d = 400 ∧
      getDifficultyParams d = ⟨0.28, 0.35, 195, 200, 0.22, 0.25, 180, 240⟩) ∧
    (∀ (s : EngineState) (d : String), (setDifficulty s d).difficulty = d ∧
      (setDifficulty s d).reactionTime = getReactionTime d ∧
      (setDifficulty s d).params = getDifficultyParams d) := by
  refine ⟨⟨getReactionTime_easy, ?_⟩, ⟨getReactionTime_medium, ?_⟩,
    ⟨getReactionTime_hard, ?_⟩, ?_, ?_⟩
  · rw [getDifficultyParams_easy]
    rfl
  · rw [getDifficultyParams_medium]
    rfl
  · rw [getDifficultyParams_hard]
    rfl
  · intro d h1 h2 h3
    constructor
    · rw [getReactionTime, if_neg h1, if_neg h2, if_neg h3]
    · rw [getDifficultyParams, if_neg h1, if_neg h2, if_neg h3]
      rfl
  · intro s d
    exact ⟨rfl, rfl, rfl⟩

/-- C5 witness: the unrecognized tier string "nightmare" yields exactly the
medium reaction time and parameter record. -/
theorem claim5_witness :
    getReactionTime "nightmare" = 400 ∧
    getDifficultyParams "nightmare" = ⟨0.28, 0.35, 195, 200, 0.22, 0.25, 180, 240⟩ :=
  claim5_difficulty_table.2.2.2.1 "nightmare" (by decide) (by decide) (by decide)

/-- C8: with the uniform source injected explicitly, the engine is a pure
function of state and inputs: two runs from equal states that are fed equal
inputs and draws at every step produce equal action sequences and equal
final states. -/
theorem claim8_determinism : ∀ (n : ℕ) (s t : EngineState) (ins1 ins2 : ℕ → CallInput),
    s = t → (∀ k, k < n → ins1 k = ins2 k) →
    runFor s ins1 n = runFor t ins2 n := by
  intro n
  induction n with
  | zero =>
    intro s t _ _ hst _
    subst hst
    rfl
  | succ m ih =>
    intro s t ins1 ins2 hst hins
    subst hst
    have h0 : ins1 0 = ins2 0 := hins 0 (Nat.succ_pos m)
    simp only [runFor]
    rw [h0, ih (stepCall s (ins2 0)).2 (stepCall s (ins2 0)).2
      (fun k => ins1 (k + 1)) (fun k => ins2 (k + 1)) rfl
      (fun k hk => hins (k + 1) (Nat.succ_lt_succ hk))]

/-- C8 witness: a two-step run from the hard tier replays identically. -/
theorem claim8_witness :
    runFor (mkAIController "hard")
      (fun _ => ⟨⟨0, 40, false, false⟩, ⟨100, 40, false, false⟩, 150, [0.5]⟩) 2 =
    runFor (mkAIController "hard")
      (fun _ => ⟨⟨0, 40, false, false⟩, ⟨100, 40, false, false⟩, 150, [0.5]⟩) 2 :=
  claim8_determinism 2 (mkAIController "hard") (mkAIController "hard")
    (fun _ => ⟨⟨0, 40, false, false⟩, ⟨100, 40, false, false⟩, 150, [0.5]⟩)
    (fun _ => ⟨⟨0, 40, false, false⟩, ⟨100, 40, false, false⟩, 150, [0.5]⟩)
    rfl (fun _ _ => rfl)

/-- C10: a freshly constructed engine answers `Idle` on every call whose
timestamp is below the reaction time, never computing a decision or setting
`currentAction` — no non-idle action can be emitted before the clock reaches
`reactionTime`. -/
theorem claim10_no_action_before_reaction (d : String) (calls : List CallInput)
    (h : ∀ c ∈ calls, c.currentTime < (mkAIController d).reactionTime) :
    (∀ a ∈ (runCalls (mkAIController d) calls).1, a = .idle) ∧
    (runCalls (mkAIController d) calls).2.currentAction = none ∧
    (runCalls (mkAIController d) calls).2.lastDecisionTime = 0 := by
  have hall := runCalls_pre_reaction calls (mkAIController d) rfl rfl h
  exact ⟨hall.1, hall.2.1, hall.2.2.1⟩

/-- C10 witness: at the easy tier (1200 ms reaction time), two in-range calls
at 100 ms and 600 ms leave the decision state untouched. -/
theorem claim10_witness :
    (runCalls (mkAIController "easy")
      [⟨⟨0, 40, false, false⟩, ⟨100, 40, false, false⟩, 100, [0.9]⟩,
       ⟨⟨0, 40, false, false⟩, ⟨100, 40, false, false⟩, 600, [0.9]⟩]).2.currentAction =
      none ∧
    (runCalls (mkAIController "easy")
      [⟨⟨0, 40, false, false⟩, ⟨100, 40, false, false⟩, 100, [0.9]⟩,
       ⟨⟨0, 40, false, false⟩, ⟨100, 40, false, false⟩, 600, [0.9]⟩]).2.lastDecisionTime =
      0 := by
  have h := claim10_no_action_before_reaction "easy"
    [⟨⟨0, 40, false, false⟩, ⟨100, 40, false, false⟩, 100, [0.9]⟩,
     ⟨⟨0, 40, false, false⟩, ⟨100, 40, false, false⟩, 600, [0.9]⟩]
    (by
      intro c hc
      have hrt : (mkAIController "easy").reactionTime = 1200 := getReactionTime_easy
      rw [hrt]
      rcases List.mem_cons.mp hc with hc | hc
      · rw [hc]
        norm_num
      · rcases List.mem_cons.mp hc with hc | hc
        · rw [hc]
          norm_num
        · exact absurd hc (List.not_mem_nil c))
  exact ⟨h.2.1, h.2.2⟩

/-- The fighters of the C2 and C6 concrete runs. -/
def cexSelf : Fighter := ⟨0, 40, false, false⟩

/-- Far-away opponent used in the C2 concrete runs. -/
def cexOpp : Fighter := ⟨500, 40, false, false⟩

/-- C2 (amended): for two consecutive calls with neither fighter dead on
either call, if `now2` is still inside the reaction window measured from the
`lastDecisionTime` in force after the first call (that is,
`now2 - lastDecisionTime < reactionTime`, where `lastDecisionTime = now1`
whenever the first call computed a fresh decision), then the second call
returns the same `ActionIntent` as the first. -/
theorem claim2_reaction_gate (s : EngineState) (self1 opp1 self2 opp2 : Fighter)
    (now1 now2 : ℚ) (rng1 rng2 : List ℚ)
    (h1s : self1.dead = false) (h1o : opp1.dead = false)
    (h2s : self2.dead = false) (h2o : opp2.dead = false)
    (hgap : now2 - (update s self1 opp1 now1 rng1).2.1.lastDecisionTime <
            (update s self1 opp1 now1 rng1).2.1.reactionTime) :
    (update (update s self1 opp1 now1 rng1).2.1 self2 opp2 now2 rng2).1 =
      (update s self1 opp1 now1 rng1).1 := by
  rw [update_gate_closed_action _ self2 opp2 now2 rng2 h2s h2o hgap]
  exact update_currentAction_getD s self1 opp1 now1 rng1 h1s h1o

/-- C2 counterexample: the claim as stated (with the window measured between
the two call timestamps) is false.  At the medium tier, a fresh decision at
400 ms yields `Move right`; the gated call at 799 ms repeats it; the call at
800 ms — only 1 ms later, with everyone alive — recomputes (since
`800 - lastDecisionTime = 400 ≥ reactionTime`) and, with a successful mistake
roll, returns `Attack` instead. -/
theorem claim2_counterexample :
    (runCalls (mkAIController "medium")
      [⟨cexSelf, cexOpp, 400, [0.9]⟩,
       ⟨cexSelf, cexOpp, 799, []⟩,
       ⟨cexSelf, cexOpp, 800, [0.1, 0.6]⟩]).1 =
      [.move .right, .move .right, .attack] ∧
    (800 : ℚ) - 799 < (mkAIController "medium").reactionTime ∧
    cexSelf.dead = false ∧ cexOpp.dead = false := by
  have h1 : stepCall (mkAIController "medium") ⟨cexSelf, cexOpp, 400, [0.9]⟩ =
      (.move .right,
       ⟨"medium", "idle", 400, 400, some (.move .right), 0, 0, 0, 0, mediumProfile⟩) := by
    simp only [stepCall, update, mkAIController, getDifficultyParams_medium,
      getReactionTime_medium, decCooldowns, makeDecision, fireAttack, draw, getDistance,
      continueCurrentAction, getIdleActions, decideJump, decideJumpOffense, decideMove,
      decideStrafe, makeRandomAction, mistakeActions, cexSelf, cexOpp, mediumProfile,
      if_neg (show ¬(("medium" : String) = "easy") by decide)]
    norm_num
  have h2 : stepCall ⟨"medium", "idle", 400, 400, some (.move .right), 0, 0, 0, 0, mediumProfile⟩
      ⟨cexSelf, cexOpp, 799, []⟩ =
      (.move .right,
       ⟨"medium", "idle", 400, 400, some (.move .right), 0, 0, 0, 0, mediumProfile⟩) := by
    simp only [stepCall, update, decCooldowns, makeDecision, fireAttack, draw, getDistance,
      continueCurrentAction, getIdleActions, decideJump, decideJumpOffense, decideMove,
      decideStrafe, makeRandomAction, mistakeActions, cexSelf, cexOpp, mediumProfile,
      if_neg (show ¬(("medium" : String) = "easy") by decide)]
    norm_num
  have h3 : stepCall ⟨"medium", "idle", 400, 400, some (.move .right), 0, 0, 0, 0, mediumProfile⟩
      ⟨cexSelf, cexOpp, 800, [0.1, 0.6]⟩ =
      (.attack, ⟨"medium", "idle", 400, 800, some .attack, 0, 0, 0, 0, mediumProfile⟩) := by
    simp only [stepCall, update, decCooldowns, makeDecision, fireAttack, draw, getDistance,
      continueCurrentAction, getIdleActions, decideJump, decideJumpOffense, decideMove,
      decideStrafe, makeRandomAction, mistakeActions, cexSelf, cexOpp, mediumProfile,
      if_neg (show ¬(("medium" : String) = "easy") by decide)]
    norm_num
    rfl
  refine ⟨?_, ?_, rfl, rfl⟩
  · simp only [runCalls, h1, h2, h3]
  · rw [show (mkAIController "medium").reactionTime = 400 from getReactionTime_medium]
    norm_num

/-- C2 witness: a gated second call at 500 ms (100 ms after the fresh decision
at 400 ms) repeats the first call's action. -/
theorem claim2_witness :
    (update (update (mkAIController "medium") cexSelf cexOpp 400 [0.9]).2.1
      cexSelf cexOpp 500 []).1 =
    (update (mkAIController "medium") cexSelf cexOpp 400 [0.9]).1 := by
  apply claim2_reaction_gate (mkAIController "medium") cexSelf cexOpp cexSelf cexOpp 400 500
    [0.9] [] rfl rfl rfl rfl
  have e1 : (update (mkAIController "medium") cexSelf cexOpp 400 [0.9]).2.1 =
      ⟨"medium", "idle", 400, 400, some (.move .right), 0, 0, 0, 0, mediumProfile⟩ := by
    simp only [update, mkAIController, getDifficultyParams_medium, getReactionTime_medium,
      decCooldowns, makeDecision, fireAttack, draw, getDistance, continueCurrentAction,
      getIdleActions, decideJump, decideJumpOffense, decideMove, decideStrafe,
      makeRandomAction, mistakeActions, cexSelf, cexOpp, mediumProfile,
      if_neg (show ¬(("medium" : String) = "easy") by decide)]
    norm_num
  rw [e1]
  norm_num

/-- Opponent at x = 150 for the C6 scenario. -/
def c6Opp : Fighter := ⟨150, 40, false, false⟩

/-- C6: at the medium tier, with self at x = 0 and the opponent at x = 150
(both width 40), a zero attack cooldown, the gate open, the mistake roll
failing and the aggressiveness roll succeeding, the call returns `Attack`
and sets `attackCooldown` to a value in `[180, 240]`. -/
theorem claim6_medium_scenario (r1 r2 r3 : ℚ) (h1 : 0.25 ≤ r1) (h3 : r2 < 0.28)
    (h4 : 0 ≤ r3) (h5 : r3 < 1) :
    (update (mkAIController "medium") cexSelf c6Opp 400 [r1, r2, r3]).1 = .attack ∧
    180 ≤ (update (mkAIController "medium") cexSelf c6Opp 400 [r1, r2, r3]).2.1.attackCooldown ∧
    (update (mkAIController "medium") cexSelf c6Opp 400 [r1, r2, r3]).2.1.attackCooldown ≤
      240 := by
  refine ⟨?_, ?_, ?_⟩ <;>
    simp only [update, mkAIController, getReactionTime_medium, getDifficultyParams_medium,
      decCooldowns, makeDecision, fireAttack, draw, getDistance, continueCurrentAction,
      getIdleActions, decideJump, decideJumpOffense, decideMove, decideStrafe,
      makeRandomAction, mistakeActions, cexSelf, c6Opp, mediumProfile,
      if_neg (show ¬(("medium" : String) = "easy") by decide),
      if_neg (not_lt.mpr h1), if_pos h3] <;>
    norm_num <;>
    nlinarith [mul_nonneg h4 (show (0 : ℚ) ≤ 60 by norm_num)]

/-- C6 witness: the concrete draws 0.9 (mistake roll fails), 0.1
(aggressiveness roll succeeds) and 0.5 (cooldown draw) yield `Attack` with a
cooldown in `[180, 240]`. -/
theorem claim6_witness :
    (update (mkAIController "medium") cexSelf c6Opp 400 [0.9, 0.1, 0.5]).1 = .attack ∧
    180 ≤ (update (mkAIController "medium") cexSelf c6Opp 400
      [0.9, 0.1, 0.5]).2.1.attackCooldown ∧
    (update (mkAIController "medium") cexSelf c6Opp 400
      [0.9, 0.1, 0.5]).2.1.attackCooldown ≤ 240 :=
  claim6_medium_scenario 0.9 0.1 0.5 (by norm_num) (by norm_num) (by norm_num) (by norm_num)

/-- Index correspondence of `makeRandomAction`: a draw in `[k/6, (k+1)/6)`
selects the k-th element of the fixed mistake list. -/
theorem makeRandomAction_eq (r : ℚ) (k : ℕ) (hlo : (k : ℚ) / 6 ≤ r)
    (hhi : r < ((k : ℚ) + 1) / 6) :
    makeRandomAction r = mistakeActions.getD k getIdleActions := by
  rw [makeRandomAction]
  have hfl : ⌊r * 6⌋ = (k : ℤ) := by
    rw [Int.floor_eq_iff]
    constructor
    · push_cast
      linarith
    · push_cast
      linarith
  rw [hfl]
  rfl

/-- Any in-range draw selects an element of the fixed mistake list. -/
theorem makeRandomAction_mem (r : ℚ) (_h0 : 0 ≤ r) (h1 : r < 1) :
    makeRandomAction r ∈ mistakeActions := by
  have hk : (⌊r * 6⌋).toNat < 6 := by
    have hlt : ⌊r * 6⌋ < 6 := by
      apply Int.floor_lt.mpr
      push_cast
      linarith
    omega
  rw [makeRandomAction]
  set k := (⌊r * 6⌋).toNat with hkdef
  clear_value k
  interval_cases k <;> decide

/-- The state and leftover draws of the mistake branch: the roll succeeds,
one more draw picks the action, and the engine state is untouched. -/
theorem makeDecision_mistake (s : EngineState) (distance : ℚ) (l : Bool) (r1 r2 : ℚ)
    (rest : List ℚ) (hm : r1 < s.params.mistakes) :
    makeDecision s distance l (r1 :: r2 :: rest) = (makeRandomAction r2, s, rest) := by
  simp only [makeDecision, draw]
  rw [if_pos hm]

/-- C7: whenever a fresh decision is computed and the mistake roll succeeds,
the call returns an element of the fixed six-action mistake list — the k-th
element exactly when the selection draw lies in `[k/6, (k+1)/6)` — and the
branch writes neither `attackCooldown` nor `jumpCooldown` (they keep their
step-1 decremented values, even when the chosen action is `Attack` or
`Jump`). -/
theorem claim7_mistake_branch (s : EngineState) (aiPlayer opponent : Fighter)
    (now r1 r2 : ℚ) (rest : List ℚ)
    (hds : aiPlayer.dead = false) (hdo : opponent.dead = false)
    (hatt : aiPlayer.isAttacking = false)
    (hg : s.reactionTime ≤ now - s.lastDecisionTime)
    (hm : r1 < s.params.mistakes) (h0 : 0 ≤ r2) (h1 : r2 < 1) :
    ((update s aiPlayer opponent now (r1 :: r2 :: rest)).1 ∈ mistakeActions) ∧
    (∀ k : ℕ, (k : ℚ) / 6 ≤ r2 → r2 < ((k : ℚ) + 1) / 6 →
      (update s aiPlayer opponent now (r1 :: r2 :: rest)).1 =
        mistakeActions.getD k getIdleActions) ∧
    ((update s aiPlayer opponent now (r1 :: r2 :: rest)).2.1.attackCooldown =
      if 0 < s.attackCooldown then s.attackCooldown - 1 else s.attackCooldown) ∧
    ((update s aiPlayer opponent now (r1 :: r2 :: rest)).2.1.jumpCooldown =
      if 0 < s.jumpCooldown then s.jumpCooldown - 1 else s.jumpCooldown) := by
  have hfresh := update_fresh s now (r1 :: r2 :: rest) hds hdo hatt (not_lt.mpr hg)
  have hmd := makeDecision_mistake { decCooldowns s with lastDecisionTime := now }
    (getDistance aiPlayer opponent) (decide (opponent.x < aiPlayer.x)) r1 r2 rest hm
  rw [hfresh]
  refine ⟨?_, ?_, ?_, ?_⟩
  · show (makeDecision { decCooldowns s with lastDecisionTime := now }
      (getDistance aiPlayer opponent) (decide (opponent.x < aiPlayer.x))
      (r1 :: r2 :: rest)).1 ∈ mistakeActions
    rw [hmd]
    exact makeRandomAction_mem r2 h0 h1
  · intro k hlo hhi
    show (makeDecision { decCooldowns s with lastDecisionTime := now }
      (getDistance aiPlayer opponent) (decide (opponent.x < aiPlayer.x))
      (r1 :: r2 :: rest)).1 = mistakeActions.getD k getIdleActions
    rw [hmd]
    exact makeRandomAction_eq r2 k hlo hhi
  · show (makeDecision { decCooldowns s with lastDecisionTime := now }
      (getDistance aiPlayer opponent) (decide (opponent.x < aiPlayer.x))
      (r1 :: r2 :: rest)).2.1.attackCooldown =
      if 0 < s.attackCooldown then s.attackCooldown - 1 else s.attackCooldown
    rw [hmd]
    rfl
  · show (makeDecision { decCooldowns s with lastDecisionTime := now }
      (getDistance aiPlayer opponent) (decide (opponent.x < aiPlayer.x))
      (r1 :: r2 :: rest)).2.1.jumpCooldown =
      if 0 < s.jumpCooldown then s.jumpCooldown - 1 else s.jumpCooldown
    rw [hmd]
    rfl

/-- Opponent at x = 100 (distance 100 from `cexSelf`), used in the hard- and
easy-tier concrete runs. -/
def nearOpp : Fighter := ⟨100, 40, false, false⟩

/-- C7 witness: at the easy tier with mistake draw 0.1 (< 0.5) and selection
draw 0.7 (in `[4/6, 5/6)`), the call returns the fifth mistake action
(`Jump left`). -/
theorem claim7_witness :
    ((update (mkAIController "easy") cexSelf nearOpp 1200 [0.1, 0.7, 0.5]).1 ∈
      mistakeActions) ∧
    (update (mkAIController "easy") cexSelf nearOpp 1200 [0.1, 0.7, 0.5]).1 =
      mistakeActions.getD 4 getIdleActions := by
  have hg : (mkAIController "easy").reactionTime ≤
      (1200 : ℚ) - (mkAIController "easy").lastDecisionTime := by
    rw [show (mkAIController "easy").reactionTime = 1200 from getReactionTime_easy]
    show (1200 : ℚ) ≤ 1200 - 0
    norm_num
  have hm : (0.1 : ℚ) < (mkAIController "easy").params.mistakes := by
    rw [show (mkAIController "easy").params = easyProfile from getDifficultyParams_easy]
    norm_num [easyProfile]
  have h := claim7_mistake_branch (mkAIController "easy") cexSelf nearOpp 1200 0.1 0.7 [0.5]
    rfl rfl rfl hg hm (by norm_num) (by norm_num)
  exact ⟨h.1, h.2.1 4 (by norm_num) (by norm_num)⟩

/-- C9: `jumpCooldown` starts at 0 and over all reachable states is a natural
number at most 120; it is decremented by exactly 1 per call while above 1, and
on the call where it reaches 0 it either stays 0 or is re-armed to 120 (the
only value ever assigned); from 120 the `jumpCooldown == 0` eligibility test
is reached again after exactly 120 further calls. -/
theorem claim9_jumpCooldown_integer :
    (∀ d : String, (mkAIController d).jumpCooldown = 0) ∧
    (∀ s : EngineState, Reachable s → ∃ n : ℕ, n ≤ 120 ∧ s.jumpCooldown = (n : ℚ)) ∧
    (∀ (s : EngineState) (aiPlayer opponent : Fighter) (t : ℚ) (rng : List ℚ),
      1 < s.jumpCooldown →
      (update s aiPlayer opponent t rng).2.1.jumpCooldown = s.jumpCooldown - 1) ∧
    (∀ (s : EngineState) (aiPlayer opponent : Fighter) (t : ℚ) (rng : List ℚ),
      s.jumpCooldown = 1 →
      (update s aiPlayer opponent t rng).2.1.jumpCooldown = 0 ∨
      (update s aiPlayer opponent t rng).2.1.jumpCooldown = 120) ∧
    (∀ (s : EngineState) (ins : ℕ → CallInput) (j : ℕ), s.jumpCooldown = 120 → j ≤ 119 →
      (runFor s ins j).2.jumpCooldown = 120 - (j : ℚ)) := by
  refine ⟨fun d => rfl, fun s hs => (reachable_inv s hs).2.1, ?_, ?_, ?_⟩
  · intro s aiPlayer opponent t rng h1
    exact update_jumpCooldown_dec s aiPlayer opponent t rng (by linarith)
      (by intro hx; rw [hx] at h1; norm_num at h1)
  · intro s aiPlayer opponent t rng h1
    exact update_jumpCooldown_one s aiPlayer opponent t rng h1
  · intro s ins j hj hle
    have hlt : (j : ℚ) < s.jumpCooldown := by
      rw [hj]
      have h119 : (j : ℚ) ≤ 119 := by exact_mod_cast hle
      linarith
    rw [runFor_jump_countdown j ins s hlt, hj]

/-- C9 witness: from a state with `jumpCooldown = 5` one call decrements it to
4, and a 7-call run from `jumpCooldown = 120` leaves it at 113. -/
theorem claim9_witness :
    (update ⟨"hard", "idle", 150, 0, none, 0, 0, 5, 0, hardProfile⟩ cexSelf nearOpp 0
      []).2.1.jumpCooldown = (5 : ℚ) - 1 ∧
    (runFor ⟨"hard", "idle", 150, 0, none, 0, 0, 120, 0, hardProfile⟩
      (fun _ => ⟨cexSelf, nearOpp, 0, []⟩) 7).2.jumpCooldown = 120 - ((7 : ℕ) : ℚ) := by
  constructor
  · exact claim9_jumpCooldown_integer.2.2.1 ⟨"hard", "idle", 150, 0, none, 0, 0, 5, 0,
      hardProfile⟩ cexSelf nearOpp 0 [] (by norm_num)
  · exact claim9_jumpCooldown_integer.2.2.2.2 ⟨"hard", "idle", 150, 0, none, 0, 0, 120, 0,
      hardProfile⟩ (fun _ => ⟨cexSelf, nearOpp, 0, []⟩) 7 rfl (by norm_num)

/-- C1 (amended): over all reachable engine states (draws taken in `[0, 1)`),
`jumpCooldown` never goes negative and `attackCooldown` never goes below −1
(but, unlike the claim, it can go strictly negative: see the counterexample);
each counter decreases by exactly 1 per `update` call while positive, except
that a counter sitting exactly at 1 may be re-armed by the decision this very
call enables. -/
theorem claim1_cooldown_bounds (s : EngineState) (hs : Reachable s) :
    (0 ≤ s.jumpCooldown ∧ (-1 : ℚ) < s.attackCooldown) ∧
    (∀ (aiPlayer opponent : Fighter) (t : ℚ) (rng : List ℚ),
      (0 < s.attackCooldown → s.attackCooldown ≠ 1 →
        (update s aiPlayer opponent t rng).2.1.attackCooldown = s.attackCooldown - 1) ∧
      (1 < s.jumpCooldown →
        (update s aiPlayer opponent t rng).2.1.jumpCooldown = s.jumpCooldown - 1) ∧
      (validRng rng → 0 ≤ (update s aiPlayer opponent t rng).2.1.jumpCooldown ∧
        (-1 : ℚ) < (update s aiPlayer opponent t rng).2.1.attackCooldown)) := by
  obtain ⟨ha, ⟨n, hn, hj⟩, hp⟩ := reachable_inv s hs
  refine ⟨⟨by rw [hj]; positivity, ha⟩, ?_⟩
  intro aiPlayer opponent t rng
  refine ⟨fun h0 hne => update_attackCooldown_dec s aiPlayer opponent t rng h0 hne,
    fun h1 => update_jumpCooldown_dec s aiPlayer opponent t rng (by linarith)
      (by intro hx; rw [hx] at h1; norm_num at h1),
    fun hv => ?_⟩
  obtain ⟨ha2, ⟨m, hm, hj2⟩, _⟩ :=
    inv_update s aiPlayer opponent t rng hv ⟨ha, ⟨n, hn, hj⟩, hp⟩
  exact ⟨by rw [hj2]; positivity, ha2⟩

/-- C1 witness: the fresh hard-tier controller satisfies the bounds, and a
call with an empty (vacuously in-range) draw list keeps them. -/
theorem claim1_witness :
    (0 ≤ (mkAIController "hard").jumpCooldown ∧
      (-1 : ℚ) < (mkAIController "hard").attackCooldown) ∧
    0 ≤ (update (mkAIController "hard") cexSelf nearOpp 0 []).2.1.jumpCooldown := by
  have h := claim1_cooldown_bounds (mkAIController "hard") (Reachable.init "hard")
  exact ⟨h.1, ((h.2 cexSelf nearOpp 0 []).2.2
    (fun r hr => absurd hr (List.not_mem_nil r))).1⟩

/-- C1 counterexample: `attackCooldown` does go negative on a reachable run.
At the hard tier a successful attack with cooldown draw 1/120 sets
`attackCooldown = 90.5`; 91 subsequent in-window calls decrement it by 1 each,
ending at −1/2 < 0 — the as-stated "never go negative" is false. -/
theorem claim1_counterexample :
    (runCalls (mkAIController "hard")
      (⟨cexSelf, nearOpp, 150, [0.9, 0.1, 1/120]⟩ ::
        List.replicate 91 ⟨cexSelf, nearOpp, 150, []⟩)).2.attackCooldown < 0 := by
  have h1 : stepCall (mkAIController "hard") ⟨cexSelf, nearOpp, 150, [0.9, 0.1, 1/120]⟩ =
      (.attack, ⟨"hard", "idle", 150, 150, some .attack, 0, 181/2, 0, 0, hardProfile⟩) := by
    simp only [stepCall, update, mkAIController, getDifficultyParams_hard, getReactionTime_hard,
      decCooldowns, makeDecision, fireAttack, draw, getDistance, continueCurrentAction,
      getIdleActions, decideJump, decideJumpOffense, decideMove, decideStrafe, makeRandomAction,
      mistakeActions, cexSelf, nearOpp, hardProfile,
      if_neg (show ¬(("hard" : String) = "easy") by decide)]
    norm_num
  have h2 := runCalls_gated cexSelf nearOpp 150 rfl rfl rfl 91
    ⟨"hard", "idle", 150, 150, some .attack, 0, 181/2, 0, 0, hardProfile⟩
    (by norm_num) (by push_cast; norm_num) rfl
  rw [runCalls_cons_snd, h1]
  show (runCalls ⟨"hard", "idle", 150, 150, some .attack, 0, 181/2, 0, 0, hardProfile⟩
    (List.replicate 91 ⟨cexSelf, nearOpp, 150, []⟩)).2.attackCooldown < 0
  rw [h2]
  show (181 : ℚ)/2 - (91 : ℕ) < 0
  push_cast
  norm_num

/-- One easy-tier attack attempt of the C3 run: a decision call at time `T`
(mistake roll 0.9 fails against 0.5, aggressiveness roll 0.1 succeeds against
0.9, cooldown draw 0.5), followed by 120 in-window calls at `T + 1` that let
the 120-frame cooldown elapse. -/
def c3Block (T : ℚ) : List CallInput :=
  ⟨cexSelf, nearOpp, T, [0.9, 0.1, 0.5]⟩ ::
    List.replicate 120 ⟨cexSelf, nearOpp, T + 1, []⟩

/-- Nine consecutive easy-tier attack attempts, 1200 ms apart. -/
def c3Trace : List CallInput :=
  c3Block 1200 ++ c3Block 2400 ++ c3Block 3600 ++ c3Block 4800 ++ c3Block 6000 ++
    c3Block 7200 ++ c3Block 8400 ++ c3Block 9600 ++ c3Block 10800

theorem c3_decision_hit (c c' : ℕ) (hc : c + 1 = c') (T L : ℚ) (ca : Option ActionIntent)
    (hgate : 1200 ≤ T - L) (hmod : ¬(c' % 3 = 0)) :
    stepCall ⟨"easy", "idle", 1200, L, ca, 0, 0, 0, c, easyProfile⟩
      ⟨cexSelf, nearOpp, T, [0.9, 0.1, 0.5]⟩ =
      (.attack, ⟨"easy", "idle", 1200, T, some .attack, 0, 120, 0, c', easyProfile⟩) := by
  simp only [stepCall, update, decCooldowns, makeDecision, fireAttack, draw, getDistance,
    continueCurrentAction, getIdleActions, decideJump, decideJumpOffense, decideMove,
    decideStrafe, makeRandomAction, mistakeActions, cexSelf, nearOpp, easyProfile, hc,
    if_neg (not_lt.mpr hgate), if_neg hmod]
  norm_num

theorem c3_decision_miss (c c' : ℕ) (hc : c + 1 = c') (T L : ℚ) (ca : Option ActionIntent)
    (hgate : 1200 ≤ T - L) (hmod : c' % 3 = 0) :
    stepCall ⟨"easy", "idle", 1200, L, ca, 0, 0, 0, c, easyProfile⟩
      ⟨cexSelf, nearOpp, T, [0.9, 0.1, 0.5]⟩ =
      (.idle, ⟨"easy", "idle", 1200, T, some .idle, 0, 120, 0, c', easyProfile⟩) := by
  simp only [stepCall, update, decCooldowns, makeDecision, fireAttack, draw, getDistance,
    continueCurrentAction, getIdleActions, decideJump, decideJumpOffense, decideMove,
    decideStrafe, makeRandomAction, mistakeActions, cexSelf, nearOpp, easyProfile, hc,
    if_pos hmod, if_neg (not_lt.mpr hgate)]
  norm_num

theorem c3_block_hit (c c' : ℕ) (hc : c + 1 = c') (T L : ℚ) (ca : Option ActionIntent)
    (hgate : 1200 ≤ T - L) (hmod : ¬(c' % 3 = 0)) :
    runCalls ⟨"easy", "idle", 1200, L, ca, 0, 0, 0, c, easyProfile⟩ (c3Block T) =
      (List.replicate 121 ActionIntent.attack,
       ⟨"easy", "idle", 1200, T, some .attack, 0, 0, 0, c', easyProfile⟩) := by
  have hd := c3_decision_hit c c' hc T L ca hgate hmod
  have hrest := runCalls_gated cexSelf nearOpp (T + 1) rfl rfl rfl 120
    ⟨"easy", "idle", 1200, T, some .attack, 0, 120, 0, c', easyProfile⟩
    (by show T + 1 - T < (1200 : ℚ); linarith)
    (by push_cast; norm_num) rfl
  rw [c3Block, Prod.ext_iff]
  constructor
  · simp only [runCalls_cons_fst, hd, hrest, continueCurrentAction, Option.getD_some]
    decide
  · simp only [runCalls_cons_snd, hd, hrest]
    ext <;> first | rfl | (push_cast; norm_num)

theorem c3_block_miss (c c' : ℕ) (hc : c + 1 = c') (T L : ℚ) (ca : Option ActionIntent)
    (hgate : 1200 ≤ T - L) (hmod : c' % 3 = 0) :
    runCalls ⟨"easy", "idle", 1200, L, ca, 0, 0, 0, c, easyProfile⟩ (c3Block T) =
      (List.replicate 121 ActionIntent.idle,
       ⟨"easy", "idle", 1200, T, some .idle, 0, 0, 0, c', easyProfile⟩) := by
  have hd := c3_decision_miss c c' hc T L ca hgate hmod
  have hrest := runCalls_gated cexSelf nearOpp (T + 1) rfl rfl rfl 120
    ⟨"easy", "idle", 1200, T, some .idle, 0, 120, 0, c', easyProfile⟩
    (by show T + 1 - T < (1200 : ℚ); linarith)
    (by push_cast; norm_num) rfl
  rw [c3Block, Prod.ext_iff]
  constructor
  · simp only [runCalls_cons_fst, hd, hrest, continueCurrentAction, Option.getD_some]
    decide
  · simp only [runCalls_cons_snd, hd, hrest]
    ext <;> first | rfl | (push_cast; norm_num)

set_option maxRecDepth 8000 in
/-- C3: over 9 consecutive easy-tier attack attempts (mistake rolls failing,
aggressiveness rolls succeeding, distance 100 within the 190 attack range,
cooldown back to 0 before each attempt), exactly the 3rd, 6th and 9th
attempts emit `Idle` while the rest emit `Attack`; and immediately after each
scripted-miss decision `attackCooldown` is still set, to
`attackCooldownMin = 120`. -/
theorem claim3_easy_scripted_miss :
    (runCalls (mkAIController "easy") c3Trace).1 =
      List.replicate 121 ActionIntent.attack ++ List.replicate 121 ActionIntent.attack ++
      List.replicate 121 ActionIntent.idle ++ List.replicate 121 ActionIntent.attack ++
      List.replicate 121 ActionIntent.attack ++ List.replicate 121 ActionIntent.idle ++
      List.replicate 121 ActionIntent.attack ++ List.replicate 121 ActionIntent.attack ++
      List.replicate 121 ActionIntent.idle ∧
    easyProfile.attackCooldownMin = 120 ∧
    (runCalls (mkAIController "easy") (c3Block 1200 ++ c3Block 2400 ++
      [⟨cexSelf, nearOpp, 3600, [0.9, 0.1, 0.5]⟩])).2.attackCooldown = 120 ∧
    (runCalls (mkAIController "easy") (c3Block 1200 ++ c3Block 2400 ++ c3Block 3600 ++
      c3Block 4800 ++ c3Block 6000 ++
      [⟨cexSelf, nearOpp, 7200, [0.9, 0.1, 0.5]⟩])).2.attackCooldown = 120 ∧
    (runCalls (mkAIController "easy") (c3Block 1200 ++ c3Block 2400 ++ c3Block 3600 ++
      c3Block 4800 ++ c3Block 6000 ++ c3Block 7200 ++ c3Block 8400 ++ c3Block 9600 ++
      [⟨cexSelf, nearOpp, 10800, [0.9, 0.1, 0.5]⟩])).2.attackCooldown = 120 := by
  have hmk : mkAIController "easy" = ⟨"easy", "idle", 1200, 0, none, 0, 0, 0, 0, easyProfile⟩ := by
    rw [mkAIController, getReactionTime_easy, getDifficultyParams_easy]
  have hb1 := c3_block_hit 0 1 rfl 1200 0 none (by norm_num) (by decide)
  have hb2 := c3_block_hit 1 2 rfl 2400 1200 (some .attack) (by norm_num) (by decide)
  have hb3 := c3_block_miss 2 3 rfl 3600 2400 (some .attack) (by norm_num) (by decide)
  have hb4 := c3_block_hit 3 4 rfl 4800 3600 (some .idle) (by norm_num) (by decide)
  have hb5 := c3_block_hit 4 5 rfl 6000 4800 (some .attack) (by norm_num) (by decide)
  have hb6 := c3_block_miss 5 6 rfl 7200 6000 (some .attack) (by norm_num) (by decide)
  have hb7 := c3_block_hit 6 7 rfl 8400 7200 (some .idle) (by norm_num) (by decide)
  have hb8 := c3_block_hit 7 8 rfl 9600 8400 (some .attack) (by norm_num) (by decide)
  have hb9 := c3_block_miss 8 9 rfl 10800 9600 (some .attack) (by norm_num) (by decide)
  have hd3 := c3_decision_miss 2 3 rfl 3600 2400 (some .attack) (by norm_num) (by decide)
  have hd6 := c3_decision_miss 5 6 rfl 7200 6000 (some .attack) (by norm_num) (by decide)
  have hd9 := c3_decision_miss 8 9 rfl 10800 9600 (some .attack) (by norm_num) (by decide)
  refine ⟨?_, rfl, ?_, ?_, ?_⟩
  · rw [c3Trace, hmk]
    simp only [runCalls_append_fst]
    simp only [runCalls_append_snd]
    simp only [hb1]
    simp only [hb2]
    simp only [hb3]
    simp only [hb4]
    simp only [hb5]
    simp only [hb6]
    simp only [hb7]
    simp only [hb8]
    simp only [hb9]
  · rw [hmk]
    simp only [runCalls_append_snd]
    simp only [hb1]
    simp only [hb2]
    simp only [runCalls_cons_snd]
    simp only [hd3]
    simp only [runCalls]
  · rw [hmk]
    simp only [runCalls_append_snd]
    simp only [hb1]
    simp only [hb2]
    simp only [hb3]
    simp only [hb4]
    simp only [hb5]
    simp only [runCalls_cons_snd]
    simp only [hd6]
    simp only [runCalls]
  · rw [hmk]
    simp only [runCalls_append_snd]
    simp only [hb1]
    simp only [hb2]
    simp only [hb3]
    simp only [hb4]
    simp only [hb5]
    simp only [hb6]
    simp only [hb7]
    simp only [hb8]
    simp only [runCalls_cons_snd]
    simp only [hd9]
    simp only [runCalls]

end FightingAI
